import Mathlib

/-!
Verification development for the gardener-custom-metrics scrape pipeline.

The Go source is shallowly embedded:
* wall-clock instants and durations are modelled as `Int` nanoseconds
  (`time.Time` / `time.Duration`; the zero instant models Go's zero time);
* Go `float64` arithmetic in the pacemaker, the shift sizing and the metric
  rate computation is modelled exactly over `ℚ` (all quantities exercised by
  the claims are small integers or simple fractions, where `float64`
  arithmetic is exact);
* Go maps that matter to claims are modelled as association lists; the
  aliasing of a Go map header copied by a struct assignment is modelled by an
  explicit heap of label maps addressed by `Nat`;
* fallible operations return `Except`/`Option`.
-/

namespace GCM

/-- Truncation of a rational toward zero, as Go's `int64(float64expr)`
conversion does for in-range values. -/
def truncQ (q : ℚ) : ℤ := if 0 ≤ q then ⌊q⌋ else ⌈q⌉

/-- Rounding half away from zero, as Go's `math.Round`. -/
def roundHalfAway (q : ℚ) : ℤ := if 0 ≤ q then ⌊q + 1/2⌋ else ⌈q - 1/2⌉

/-! ## Pacemaker (`pkg/input/metrics_scraper/pacemaker.go`) -/

/-- `pacemakerConfig`: rates are scrapes/second (`float64` in Go, `ℚ` here),
limits are Go `int`. -/
structure PacemakerConfig where
  minRate : ℚ
  maxRate : ℚ
  rateDebtLimit : ℤ
  rateSurplusLimit : ℤ
deriving Repr, DecidableEq

/-- Mutable state of `pacemakerImpl`. `lastUpdateTime` is in nanoseconds;
`0` models Go's zero `time.Time` (`IsZero`). -/
structure PacemakerState where
  config : PacemakerConfig
  lastUpdateTime : ℤ
  currentDebt : ℚ
  currentSurplus : ℚ
deriving Repr, DecidableEq

/-- `newPacemaker`: zero time, zero debt, zero surplus. -/
def newPacemaker (config : PacemakerConfig) : PacemakerState :=
  { config := config, lastUpdateTime := 0, currentDebt := 0, currentSurplus := 0 }

/-- `pacemakerImpl.UpdateRate` -/
def updateRate (p : PacemakerState) (minRate : ℚ) (rateDebtLimit : ℤ) : PacemakerState :=
  { p with config := { p.config with minRate := minRate, rateDebtLimit := rateDebtLimit } }

/-- `pacemakerImpl.GetScrapePermission`, with the call instant `now`
(nanoseconds) passed explicitly in place of `testIsolation.TimeNow()`.
Returns the decision together with the successor state. -/
def getScrapePermission (p : PacemakerState) (now : ℤ) (isEagerToScrape : Bool) :
    Bool × PacemakerState :=
  let lastUpdateTime := if p.lastUpdateTime = 0 then now else p.lastUpdateTime
  let elapsedSeconds : ℚ := ((now - lastUpdateTime : ℤ) : ℚ) / 1000000000
  -- Reflect the passed time upon debt and surplus.
  let debt := p.currentDebt + elapsedSeconds * p.config.minRate
  let surplus := p.currentSurplus - elapsedSeconds * p.config.maxRate
  -- Apply upper bound to debt and surplus (early clamps).
  let debt := if debt > (p.config.rateDebtLimit : ℚ) then (p.config.rateDebtLimit : ℚ) else debt
  let surplus := if surplus < 0 then 0 else surplus
  -- Decide whether to allow a scrape, and reflect the decision upon debt and surplus.
  let decision :=
    if surplus ≤ ((p.config.rateSurplusLimit - 1 : ℤ) : ℚ) ∧ (debt ≥ 1 ∨ isEagerToScrape) then
      (true, debt - 1, surplus + 1)
    else
      (false, debt, surplus)
  -- Final clamps.
  let debtOut := if decision.2.1 < 0 then 0 else decision.2.1
  let surplusOut :=
    if decision.2.2 > (p.config.rateSurplusLimit : ℚ) then (p.config.rateSurplusLimit : ℚ)
    else decision.2.2
  (decision.1,
    { p with lastUpdateTime := now, currentDebt := debtOut, currentSurplus := surplusOut })

/-- Runs a sequence of `GetScrapePermission` calls, given as pairs of call
instant and eagerness flag, and collects the returned decisions. -/
def pacemakerRun (p : PacemakerState) : List (ℤ × Bool) → List Bool × PacemakerState
  | [] => ([], p)
  | (now, eager) :: rest =>
    let step := getScrapePermission p now eager
    let tail := pacemakerRun step.2 rest
    (step.1 :: tail.1, tail.2)

/-- The spec's debt evolution `debt ← min(DebtLimit, debt + Δ·MinRate)`. -/
def evolvedDebt (p : PacemakerState) (delta : ℚ) : ℚ :=
  min (p.config.rateDebtLimit : ℚ) (p.currentDebt + delta * p.config.minRate)

/-- The spec's surplus evolution `surplus ← max(0, surplus − Δ·MaxRate)`. -/
def evolvedSurplus (p : PacemakerState) (delta : ℚ) : ℚ :=
  max 0 (p.currentSurplus - delta * p.config.maxRate)

/-! ## Input data registry (`pkg/input/input_data_registry/input_data_registry.go`)

Go's `KapiData.PodLabels` is a `map[string]string`; a Go struct assignment
copies only the map header, so the copy aliases the same backing store. We
model this by placing map contents in an explicit heap of association lists
(`Registry.labelHeap`) and storing only an address in `KapiData`. Copying a
`KapiData` value copies the address (shallow), exactly as `result := *pkapi`
does in `inputDataRegistry.GetKapiData`. -/

/-- A Go `map[string]string` value: association list, first binding wins. -/
abbrev LabelMap := List (String × String)

/-- Go map assignment `m[k] = v`: overwrite the existing binding or append. -/
def mapSet : LabelMap → String → String → LabelMap
  | [], k, v => [(k, v)]
  | (k0, v0) :: rest, k, v =>
    if k0 = k then (k, v) :: rest else (k0, v0) :: mapSet rest k v

/-- Reads the map stored at `addr`; absent cells read as the empty map. -/
def heapLabels (heap : List LabelMap) (addr : ℕ) : LabelMap :=
  (heap.get? addr).getD []

/-- Go `m[k] = v` performed on the map whose header lives at `addr`. -/
def heapWrite (heap : List LabelMap) (addr : ℕ) (k v : String) : List LabelMap :=
  heap.set addr (mapSet (heapLabels heap addr) k v)

/-- `KapiData`: all registry information for a single kube-apiserver pod.
Timestamps are nanoseconds (`0` = Go's zero `time.Time`); `podLabelsAddr` is
the address of the Go map header backing `PodLabels`. -/
structure KapiData where
  shootNamespace : String
  podName : String
  podLabelsAddr : ℕ
  metricsUrl : String
  totalRequestCountNew : ℤ
  metricsTimeNew : ℤ
  totalRequestCountOld : ℤ
  metricsTimeOld : ℤ
  podUID : String
  lastMetricsScrapeTime : ℤ
  faultCount : ℤ
deriving Repr, DecidableEq

/-- `shootData`: registry information for a single shoot (CA material is not
needed by any claim and is omitted). -/
structure ShootData where
  shootNamespace : String
  authSecret : String
  kapiData : List KapiData

/-- `inputDataRegistry`: the shoot map plus the label heap backing the Go
maps referenced from `KapiData.podLabelsAddr`. -/
structure Registry where
  minSampleGap : ℤ
  shoots : String → Option ShootData
  labelHeap : List LabelMap

/-- `getKapiDataThreadUnsafe`: reference to the pod's record, or `none`.
`slices.IndexFunc` finds the first match, as `List.find?` does. -/
def getKapiDataInternal (reg : Registry) (shootNamespace podName : String) : Option KapiData :=
  (reg.shoots shootNamespace).bind fun shoot =>
    shoot.kapiData.find? fun x => x.podName = podName

/-- `inputDataRegistry.GetKapiData`. The Go body copies the struct with
`result := *pkapi`, which copies the `PodLabels` map header: the returned
value carries the same `podLabelsAddr` as the registry's record. -/
def GetKapiData (reg : Registry) (shootNamespace podName : String) : Option KapiData :=
  getKapiDataInternal reg shootNamespace podName

/-- `dataSourceAdapter.GetShootKapis`: one shallow struct copy
(`x := *shoot.KapiData[i]`) per pod of the shoot; `nil` for unknown shoots. -/
def GetShootKapis (reg : Registry) (shootNamespace : String) : List KapiData :=
  match reg.shoots shootNamespace with
  | none => []
  | some shoot => shoot.kapiData

/-- Replaces the first record with the given pod name, leaving the rest
unchanged (the in-place mutation of the record found by
`slices.IndexFunc`). -/
def updateFirst (f : KapiData → KapiData) (podName : String) : List KapiData → List KapiData
  | [] => []
  | k :: rest =>
    if k.podName = podName then f k :: rest else k :: updateFirst f podName rest

/-- Rewrites the identified shoot's pod list through `f`; other shoots are
untouched. -/
def updateKapiOfShoot (reg : Registry) (shootNamespace podName : String)
    (f : KapiData → KapiData) : Registry :=
  { reg with
    shoots := fun s =>
      if s = shootNamespace then
        (reg.shoots shootNamespace).map fun shoot =>
          { shoot with kapiData := updateFirst f podName shoot.kapiData }
      else reg.shoots s }

/-- The body of `SetKapiMetrics` applied to the record found in the registry:
the fault counter resets first, then the sample is dropped when out of order
or too soon after the stored `new` sample, otherwise the pair shifts. -/
def applySample (minSampleGap count now : ℤ) (kapi : KapiData) : KapiData :=
  let kapi := { kapi with faultCount := 0 }
  if count < kapi.totalRequestCountNew ∨ now - kapi.metricsTimeNew < minSampleGap then
    kapi
  else
    { kapi with
      metricsTimeOld := kapi.metricsTimeNew
      totalRequestCountOld := kapi.totalRequestCountNew
      metricsTimeNew := now
      totalRequestCountNew := count }

/-- `inputDataRegistry.SetKapiMetrics`, with the call instant `now` passed in
place of `testIsolation.TimeNow()`. A no-op when the pod is unknown. -/
def SetKapiMetrics (reg : Registry) (shootNamespace podName : String) (currentTotalRequestCount now : ℤ) :
    Registry :=
  match getKapiDataInternal reg shootNamespace podName with
  | none => reg
  | some _ =>
    updateKapiOfShoot reg shootNamespace podName
      (applySample reg.minSampleGap currentTotalRequestCount now)

/-- `inputDataRegistry.SetKapiLastScrapeTime`. A no-op when the pod is
unknown. -/
def SetKapiLastScrapeTime (reg : Registry) (shootNamespace podName : String) (value : ℤ) : Registry :=
  match getKapiDataInternal reg shootNamespace podName with
  | none => reg
  | some _ =>
    updateKapiOfShoot reg shootNamespace podName
      fun kapi => { kapi with lastMetricsScrapeTime := value }

/-! ## Scrape queue (`pkg/input/metrics_scraper/scrape_queue.go`) -/

/-- `scrapeTarget` -/
structure ScrapeTarget where
  Namespace : String
  PodName : String
deriving Repr, DecidableEq

/-- `getNextCandidateThreadUnsafe`: walks from the head, dropping targets
missing from the registry, and returns the remaining queue together with the
first target found in the registry (paired with its registry record). -/
def getNextCandidate (reg : Registry) : List ScrapeTarget → List ScrapeTarget × Option (ScrapeTarget × KapiData)
  | [] => ([], none)
  | t :: rest =>
    match GetKapiData reg t.Namespace t.PodName with
    | some kapi => (t :: rest, some (t, kapi))
    | none => getNextCandidate reg rest

/-- `scrapeQueueImpl.GetNext`, with the call instant `now` passed in place of
`testIsolation.TimeNow()`. Returns the dispatched target (if any) and the
successor queue, registry and pacemaker states. -/
def GetNext (targets : List ScrapeTarget) (scrapePeriod : ℤ) (reg : Registry)
    (pm : PacemakerState) (now : ℤ) :
    Option ScrapeTarget × List ScrapeTarget × Registry × PacemakerState :=
  let cand := getNextCandidate reg targets
  match cand.2 with
  | none => (none, cand.1, reg, pm)
  | some (currentTarget, kapi) =>
    -- eagerToProcess := !now.Before(lastScrapeTime.Add(scrapePeriod))
    let eagerToProcess := decide (kapi.lastMetricsScrapeTime + scrapePeriod ≤ now)
    let perm := getScrapePermission pm now eagerToProcess
    if perm.1 then
      (some currentTarget,
       cand.1.tail ++ [currentTarget],
       SetKapiLastScrapeTime reg currentTarget.Namespace currentTarget.PodName now,
       perm.2)
    else
      (none, cand.1, reg, perm.2)

/-! ## Metrics parser (`metrics_client.go`: `getTotalRequestCount`, `parseLine`)

Lines are modelled as `List Char`. The input of `getTotalRequestCount` is the
sequence of `bufio.Reader.ReadLine` results: a content fragment plus the
reader's continuation flag (`isPrefix` in Go, `isFragmentFlag` here — `true`
when the fragment is the non-final piece of an over-long line). -/

/-- The `metricName` constant, `"apiserver_request_total"`. -/
def metricNameChars : List Char := "apiserver_request_total".toList

/-- `isSpace`: ASCII blank or tab. -/
def isSpaceChar (c : Char) : Bool := c = ' ' || c = '\t'

/-- Outcome of `parseLine`. `panicked` models the Go index-out-of-range panic
that `line[i]` raises when the metric name is followed by nothing but
spaces (the first `skipSpace` result is not range-checked). -/
inductive ParseOutcome where
  | ok (seriesId : List Char) (value : ℤ)
  | malformed
  | panicked
deriving Repr, DecidableEq

/-- Digits of a base-10 literal, or `none` when empty or non-numeric. -/
def digitsVal? (s : List Char) : Option ℕ :=
  if s ≠ [] ∧ s.all (fun c => c.isDigit) then
    some (s.foldl (fun acc c => 10 * acc + (c.toNat - '0'.toNat)) 0)
  else none

/-- `strconv.ParseInt(s, 10, 64)`: optional sign, base-10 digits, result
within the `int64` range. -/
def parseIntGo (s : List Char) : Option ℤ :=
  match s with
  | [] => none
  | c :: rest =>
    let signed : Bool × List Char :=
      if c = '-' then (true, rest) else if c = '+' then (false, rest) else (false, s)
    match digitsVal? signed.2 with
    | none => none
    | some n =>
      let v : ℤ := if signed.1 then -(n : ℤ) else (n : ℤ)
      if -(2 ^ 63) ≤ v ∧ v < 2 ^ 63 then some v else none

/-- `strconv.ParseFloat` restricted to the decimal scientific shapes the
scraper can meet (`parseLine` only calls it for strings containing a lowercase
`e`): `[±] digits [. digits] (e|E) [±] digits`, with at least one mantissa
digit. The value is exact (`ℚ`); the `float64` rounding of the Go original is
exact for the integral counter values the endpoint emits. -/
def parseFloatSci (s : List Char) : Option ℚ :=
  match s with
  | [] => none
  | c :: rest =>
    let signed : Bool × List Char :=
      if c = '-' then (true, rest) else if c = '+' then (false, rest) else (false, s)
    let mantissa := signed.2.takeWhile fun d => d ≠ 'e' ∧ d ≠ 'E'
    let expPart := signed.2.drop (mantissa.length + 1)
    if mantissa.length = signed.2.length then none  -- no exponent marker
    else
      let intPart := mantissa.takeWhile (· ≠ '.')
      let fracPart := mantissa.drop (intPart.length + 1)
      if intPart.length ≠ mantissa.length ∧ fracPart.contains '.' then none
      else
      match digitsVal? (intPart ++ fracPart) with
      | none => none
      | some m =>
        let expSigned : Bool × List Char :=
          match expPart with
          | '-' :: er => (true, er)
          | '+' :: er => (false, er)
          | er => (false, er)
        match digitsVal? expSigned.2 with
        | none => none
        | some ex =>
          let mag : ℚ := (m : ℚ) / (10 : ℚ) ^ fracPart.length *
            (if expSigned.1 then ((10 : ℚ) ^ ex)⁻¹ else (10 : ℚ) ^ ex)
          some (if signed.1 then -mag else mag)

/-- The value section of `parseLine`: skip blanks, take the value token
(first character unconditionally, then up to the next blank), parse it as
scientific notation when it contains an `e` (truncating the float to `int64`)
and as a base-10 integer otherwise. -/
def parseValueSection (seriesId : List Char) (s : List Char) : ParseOutcome :=
  let s := s.dropWhile isSpaceChar
  match s with
  | [] => .malformed  -- if i >= len(line)
  | c :: rest =>
    let valueString := c :: rest.takeWhile fun d => ¬ isSpaceChar d
    if valueString.contains 'e' then
      match parseFloatSci valueString with
      | some q => .ok seriesId (truncQ q)  -- int64(floatValue)
      | none => .malformed
    else
      match parseIntGo valueString with
      | none => .malformed
      | some v => .ok seriesId v

/-- `parseLine`. Assumes the line starts with the metric name; processes the
optional `{...}` labels block (brace-matched only) and then the value. -/
def parseLine (line : List Char) : ParseOutcome :=
  if line.length ≤ metricNameChars.length then .malformed  -- i >= len(line)
  else
    let rest := (line.drop metricNameChars.length).dropWhile isSpaceChar
    match rest with
    | [] => .panicked  -- Go reads line[i] with i == len(line)
    | c :: afterName =>
      if c = '{' then
        let seriesId := afterName.takeWhile (· ≠ '}')
        if seriesId.length = afterName.length then .malformed  -- unterminated block
        else parseValueSection seriesId (afterName.drop (seriesId.length + 1))
      else parseValueSection [] (c :: afterName)

/-- One `ReadLine` result: the bytes plus the continuation flag (Go's
`isPrefix` return value). -/
structure Chunk where
  line : List Char
  isFragmentFlag : Bool
deriving Repr, DecidableEq

/-- Addition wrapped to `int64`, as Go's `+=` on `int64`. -/
def i64wrap (z : ℤ) : ℤ := (z + 2 ^ 63) % 2 ^ 64 - 2 ^ 63

/-- Error outcomes of a scrape parse. `panicked` marks inputs on which the Go
code raises a runtime panic rather than returning. -/
inductive ScrapeError where
  | malformed
  | noCountersFound
  | panicked
deriving Repr, DecidableEq

/-- The strip of leading blanks at the head of `getTotalRequestCount`'s loop:
`if len(line) > 0 && isSpace(line, 0) { line = line[skipSpace(line, 1):] }`. -/
def stripLeadingSpace : List Char → List Char
  | [] => []
  | c :: rest => if isSpaceChar c then rest.dropWhile isSpaceChar else c :: rest

/-- The reading loop of `getTotalRequestCount`: fragments of over-long lines
are skipped (the flagged pieces and the final unflagged piece), remaining
lines are stripped of leading blanks, lines not starting with the metric name
are ignored, and the values of the rest are summed (with `int64`
wrap-around); a parse failure aborts the whole call. -/
def getTotalRequestCountLoop :
    List Chunk → ℤ → Bool → Bool → Except ScrapeError ℤ
  | [], totalRequestCount, isCounterFound, _ =>
    if isCounterFound then .ok totalRequestCount else .error .noCountersFound
  | chunk :: rest, totalRequestCount, isCounterFound, isLastReadPartial =>
    if chunk.isFragmentFlag then
      getTotalRequestCountLoop rest totalRequestCount isCounterFound true
    else if isLastReadPartial then
      getTotalRequestCountLoop rest totalRequestCount isCounterFound false
    else
      let line := stripLeadingSpace chunk.line
      if metricNameChars.isPrefixOf line then
        match parseLine line with
        | .ok _ v =>
          getTotalRequestCountLoop rest (i64wrap (totalRequestCount + v)) true false
        | .malformed => .error .malformed
        | .panicked => .error .panicked
      else
        getTotalRequestCountLoop rest totalRequestCount isCounterFound false

/-- `getTotalRequestCount`. -/
def getTotalRequestCount (chunks : List Chunk) : Except ScrapeError ℤ :=
  getTotalRequestCountLoop chunks 0 false false

/-- The series name of a text-format line: the token before the labels block
or the first blank. Used to state the spec's "series whose name equals the
configured counter name" reading. -/
def seriesName (line : List Char) : List Char :=
  (stripLeadingSpace line).takeWhile fun c => ¬ (c = '{' || isSpaceChar c)

/-- Values of a list of relevant lines, left to right, aborting at the first
line `parseLine` rejects. -/
def lineValues : List (List Char) → Except ScrapeError (List ℤ)
  | [] => .ok []
  | l :: rest =>
    match parseLine l with
    | .ok _ v => (lineValues rest).map (v :: ·)
    | .malformed => .error .malformed
    | .panicked => .error .panicked

/-- Modelled from the spec: "Output: sum of every series whose name equals
the configured counter name... Fails with `NoCountersFound` when no such
series is present." Lines (after the tolerated leading blanks) are selected
by series-name equality; the selected values are summed. -/
def specSeriesSum (lines : List (List Char)) : Except ScrapeError ℤ :=
  let relevant := (lines.map stripLeadingSpace).filter fun l => seriesName l = metricNameChars
  match lineValues relevant with
  | .error e => .error e
  | .ok [] => .error .noCountersFound
  | .ok vs => .ok (vs.foldl (fun acc v => i64wrap (acc + v)) 0)

/-- The behaviour the code implements, stated declaratively: lines are
selected by the prefix test `strings.HasPrefix(line, metricName)` (after
stripping leading blanks), their values are summed with `int64` wrap-around,
the first rejected selected line aborts the call, and an empty selection
yields the no-counters-found error. -/
def prefixMatchSum (lines : List (List Char)) : Except ScrapeError ℤ :=
  let relevant := (lines.map stripLeadingSpace).filter fun l => metricNameChars.isPrefixOf l
  match lineValues relevant with
  | .error e => .error e
  | .ok [] => .error .noCountersFound
  | .ok vs => .ok (vs.foldl (fun acc v => i64wrap (acc + v)) 0)

/-! ## Metric provider (`pkg/metrics_provider`, `getMetricByPredicate`) -/

/-- The fields of one emitted `custom_metrics.MetricValue` that the claims
speak about. `value` is in milli-units; `timestamp` in nanoseconds. -/
structure MetricValue where
  value : ℤ
  timestamp : ℤ
  windowSeconds : ℤ
  podName : String
  shootNamespace : String
  podUID : String
deriving Repr, DecidableEq

/-- The per-snapshot body of `getMetricByPredicate`: the freshness policy and
the rate computation for one `ShootKapi` snapshot. `none` means the snapshot
is skipped. Go computes `requestRate` in `float64`; the model is exact over
`ℚ` (`gap.Seconds()` is `gap / 1e9`), and `int64(requestRate * 1000)`
truncates toward zero while `math.Round(gap.Seconds())` rounds half away
from zero. -/
def getMetricForKapi (maxSampleAge maxSampleGap now : ℤ) (kapi : KapiData) :
    Option MetricValue :=
  let gap := kapi.metricsTimeNew - kapi.metricsTimeOld
  if gap = 0 then none
  else if gap > maxSampleGap then none
  else if kapi.metricsTimeNew < now - maxSampleAge then none
  else
    let requestRate : ℚ :=
      ((kapi.totalRequestCountNew - kapi.totalRequestCountOld : ℤ) : ℚ) /
        ((gap : ℚ) / 1000000000)
    some
      { value := truncQ (requestRate * 1000)
        timestamp := kapi.metricsTimeNew
        windowSeconds := roundHalfAway ((gap : ℚ) / 1000000000)
        podName := kapi.podName
        shootNamespace := kapi.shootNamespace
        podUID := kapi.podUID }

/-! ## Scraper shift sizing (`scraper.go`, `startShiftWorkers`) -/

/-- The worker-count computation of `startShiftWorkers`, extracted over its
inputs: the previous shift's bookkeeping, the two due counts and the live
worker counters. `float64` arithmetic is modelled over `ℚ`; `math.Ceil`
followed by the `int` conversion is `⌈·⌉`. -/
def startShiftWorkerCount (minShiftWorkerCount maxShiftWorkerCount maxActiveWorkerCount : ℤ)
    (activeWorkerCount lastShiftTargetCount lastShiftWorkerCount
     lastShiftUnprocessedCount thisShiftTargetCount : ℤ) : ℤ :=
  let lastShiftWorkerThroughput : ℚ :=
    ((lastShiftTargetCount - lastShiftUnprocessedCount : ℤ) : ℚ) / (lastShiftWorkerCount : ℚ)
  let lastShiftWorkerThroughput :=
    if lastShiftWorkerThroughput < 1 then 1 else lastShiftWorkerThroughput
  let want : ℤ :=
    if lastShiftUnprocessedCount > 0 then
      let w := ⌈(thisShiftTargetCount : ℚ) / lastShiftWorkerThroughput⌉
      if w > 2 * lastShiftWorkerCount then 2 * lastShiftWorkerCount else w
    else
      lastShiftWorkerCount - 1
  if want < minShiftWorkerCount then minShiftWorkerCount
  else
    let want := if want > maxShiftWorkerCount then maxShiftWorkerCount else want
    let allowedPerTotalMax := maxActiveWorkerCount - activeWorkerCount
    if want > allowedPerTotalMax then allowedPerTotalMax else want

/-- Modelled from the spec: `want` (the growth/decay estimate) "clamped to
`[MinShiftWorkers, MaxShiftWorkers]` and further clamped to
`MaxActiveWorkers − activeWorkerCount`". -/
def claimShiftWorkerCount (minShiftWorkerCount maxShiftWorkerCount maxActiveWorkerCount : ℤ)
    (activeWorkerCount lastShiftTargetCount lastShiftWorkerCount
     lastShiftUnprocessedCount thisShiftTargetCount : ℤ) : ℤ :=
  let throughput : ℚ :=
    max 1 (((lastShiftTargetCount - lastShiftUnprocessedCount : ℤ) : ℚ) / (lastShiftWorkerCount : ℚ))
  let want : ℤ :=
    if lastShiftUnprocessedCount > 0 then
      min (⌈(thisShiftTargetCount : ℚ) / throughput⌉) (2 * lastShiftWorkerCount)
    else
      lastShiftWorkerCount - 1
  min (min (max want minShiftWorkerCount) maxShiftWorkerCount)
    (maxActiveWorkerCount - activeWorkerCount)

/-! ## Endpoint steerer cleanup (`pkg/ha`, `cleanUpServiceEndpoints`) -/

/-- `corev1.EndpointPort`, restricted to the fields the cleanup reads. -/
structure EndpointPort where
  port : ℤ
  protocol : String
deriving Repr, DecidableEq

/-- `corev1.EndpointSubset`, restricted: addresses carry only the IP. -/
structure EndpointSubset where
  addresses : List String
  ports : List EndpointPort
deriving Repr, DecidableEq

/-- `corev1.Endpoints`, restricted to the fields the cleanup reads. -/
structure Endpoints where
  uid : String
  resourceVersion : String
  subsets : List EndpointSubset
deriving Repr, DecidableEq

/-- Conversion to `int32`, as Go's `int32(ha.servingPort)`. -/
def i32wrap (z : ℤ) : ℤ := (z + 2 ^ 31) % 2 ^ 32 - 2 ^ 31

/-- `HAService.isEndpointStillPointingToOurReplica`: exactly one subset with
exactly one address equal to the serving IP and exactly one TCP port equal to
the serving port. -/
def isEndpointStillPointingToOurReplica (servingIPAddress : String) (servingPort : ℤ)
    (endpoints : Endpoints) : Bool :=
  match endpoints.subsets with
  | [subset] =>
    match subset.addresses, subset.ports with
    | [ip], [p] =>
      ip = servingIPAddress && p.port = i32wrap servingPort && p.protocol = "TCP"
    | _, _ => false
  | _ => false

/-- Result of one `Get` of the endpoints object, per retry iteration. -/
inductive GetOutcome where
  | notFound
  | errOther
  | found (endpoints : Endpoints)

/-- Result of one preconditioned `Delete`. `deleted` and `notFound` are the
outcomes `client.IgnoreNotFound(err) == nil` accepts as success. -/
inductive DeleteOutcome where
  | deleted
  | notFound
  | errOther

/-- The cluster as the cleanup loop sees it: the outcome of the `Get` and of
the preconditioned `Delete` issued during iteration `i`. -/
structure CleanupEnv where
  get : ℕ → GetOutcome
  del : ℕ → DeleteOutcome

/-- Terminal outcomes of `cleanUpServiceEndpoints`. The first three model
`return nil`; `exhausted` is the error after ten failed attempts. -/
inductive CleanupResult where
  | successMissing
  | abandonedForeign
  | successDeleted
  | exhausted
deriving Repr, DecidableEq

/-- A delete request issued by the cleanup: the iteration and the UID /
resource-version precondition it carried. -/
structure DeleteCall where
  attempt : ℕ
  uid : String
  resourceVersion : String
deriving Repr, DecidableEq

/-- The retry loop of `cleanUpServiceEndpoints`. `fuel` counts the remaining
loop entries (ten in all: Go increments `attempt` after each failed
iteration and breaks at `attempt >= 10`); the returned list records every
delete request issued, with its precondition. -/
def cleanupGo (env : CleanupEnv) (servingIPAddress : String) (servingPort : ℤ) :
    ℕ → ℕ → CleanupResult × List DeleteCall
  | 0, _ => (.exhausted, [])
  | fuel + 1, attempt =>
    match env.get attempt with
    | .notFound => (.successMissing, [])
    | .errOther =>
      let rest := cleanupGo env servingIPAddress servingPort fuel (attempt + 1)
      (rest.1, rest.2)
    | .found endpoints =>
      if isEndpointStillPointingToOurReplica servingIPAddress servingPort endpoints then
        let call : DeleteCall :=
          { attempt := attempt, uid := endpoints.uid, resourceVersion := endpoints.resourceVersion }
        match env.del attempt with
        | .deleted => (.successDeleted, [call])
        | .notFound => (.successDeleted, [call])
        | .errOther =>
          let rest := cleanupGo env servingIPAddress servingPort fuel (attempt + 1)
          (rest.1, call :: rest.2)
      else
        (.abandonedForeign, [])

/-- `HAService.cleanUpServiceEndpoints`: at most ten loop iterations. -/
def cleanUpServiceEndpoints (env : CleanupEnv) (servingIPAddress : String) (servingPort : ℤ) :
    CleanupResult × List DeleteCall :=
  cleanupGo env servingIPAddress servingPort 10 0

/-- Iteration `i` of the cleanup loop neither returns success nor abandons:
the `Get` errs, or the fetched record still points at this replica and the
preconditioned `Delete` fails with an error other than not-found. -/
def cleanupIterFails (env : CleanupEnv) (servingIPAddress : String) (servingPort : ℤ) (i : ℕ) :
    Prop :=
  env.get i = .errOther ∨
    ∃ endpoints, env.get i = .found endpoints ∧
      isEndpointStillPointingToOurReplica servingIPAddress servingPort endpoints = true ∧
      env.del i = .errOther

/-! ## Concrete instances used by the test-scenario claims and by witnesses -/

/-- The test-worthy pacemaker of the spec's burst/debt scenario:
`MinRate=2, MaxRate=4, DebtLimit=20, SurplusLimit=10`, fresh state. -/
def pmScenario : PacemakerState :=
  newPacemaker { minRate := 2, maxRate := 4, rateDebtLimit := 20, rateSurplusLimit := 10 }

/-- The burst/debt scenario call trace: eleven eager calls at `t = 1 s`, then
eleven eager calls at `t = 6 s` (five seconds of idleness in between). -/
def scenarioCalls : List (ℤ × Bool) :=
  List.replicate 11 ((1000000000 : ℤ), true) ++ List.replicate 11 ((6000000000 : ℤ), true)

/-- A middling pacemaker state reached after some activity; used to witness
the general permission theorem. -/
def pmMidState : PacemakerState :=
  { config := { minRate := 2, maxRate := 4, rateDebtLimit := 20, rateSurplusLimit := 10 }
    lastUpdateTime := 1000000000
    currentDebt := 3
    currentSurplus := 1 }

/-- A registry record whose pod-labels map lives at heap address 0. -/
def exampleKapi : KapiData :=
  { shootNamespace := "shoot--a"
    podName := "kapi-0"
    podLabelsAddr := 0
    metricsUrl := "https://1.2.3.4/metrics"
    totalRequestCountNew := 0
    metricsTimeNew := 0
    totalRequestCountOld := 0
    metricsTimeOld := 0
    podUID := "uid-1"
    lastMetricsScrapeTime := 0
    faultCount := 2 }

/-- A registry holding exactly `exampleKapi`, with the backing label map
`{"k1": "v1"}` at heap address 0 and `MinSampleGap` of ten seconds. -/
def exampleRegistry : Registry :=
  { minSampleGap := 10000000000
    shoots := fun s =>
      if s = "shoot--a" then
        some { shootNamespace := "shoot--a", authSecret := "token", kapiData := [exampleKapi] }
      else none
    labelHeap := [[("k1", "v1")]] }

/-- `exampleRegistry` after a caller assigns `"hijacked"` to key `"k1"` of
the pod-labels map of the snapshot returned by `GetKapiData` — the write
lands in the shared backing store; no registry operation ran. -/
def exampleRegistryAfterCallerWrite : Registry :=
  { exampleRegistry with
    labelHeap := heapWrite exampleRegistry.labelHeap exampleKapi.podLabelsAddr "k1" "hijacked" }

/-- The parser-robustness scenario body, one entry per text line. -/
def exampleBodyLines : List (List Char) :=
  ["# comment".toList,
   "other_metric 5".toList,
   "apiserver_request_total\x7bcode=\"200\"\x7d 15".toList,
   "apiserver_request_total 20".toList,
   "apiserver_request_total\x7bcode=\"500\"\x7d 1.0056e4".toList]

/-- The same body as `ReadLine` chunks (no line exceeds the buffer). -/
def exampleBodyChunks : List Chunk :=
  exampleBodyLines.map fun l => { line := l, isFragmentFlag := false }

/-- A line whose series name merely extends the configured counter name. -/
def rogueLine : List Char := "apiserver_request_total2 5".toList

/-- A snapshot with two requests counted over a three-second gap; its exact
milli-rate 2000/3 separates truncation from rounding. -/
def exampleRateKapi : KapiData :=
  { shootNamespace := "shoot--a"
    podName := "kapi-0"
    podLabelsAddr := 0
    metricsUrl := "https://1.2.3.4/metrics"
    totalRequestCountNew := 2
    metricsTimeNew := 3000000000
    totalRequestCountOld := 0
    metricsTimeOld := 0
    podUID := "uid-1"
    lastMetricsScrapeTime := 0
    faultCount := 0 }

/-- A scrape target addressing `exampleKapi`. -/
def exampleTarget : ScrapeTarget := { Namespace := "shoot--a", PodName := "kapi-0" }

/-- The metric emitted for `exampleRateKapi` at `now = 3 s`. -/
def metricWitnessValue : MetricValue :=
  { value := truncQ ((((2 : ℤ) : ℚ) / (((3000000000 : ℤ) : ℚ) / 1000000000)) * 1000)
    timestamp := 3000000000
    windowSeconds := roundHalfAway (((3000000000 : ℤ) : ℚ) / 1000000000)
    podName := "kapi-0"
    shootNamespace := "shoot--a"
    podUID := "uid-1" }

/-- A cleanup environment in which every `Get` fails with a non-not-found
error. -/
def envAllFail : CleanupEnv := { get := fun _ => .errOther, del := fun _ => .deleted }

/-! ## Shared lemmas -/

lemma find_updateFirst (f : KapiData → KapiData) (podName : String)
    (hf : ∀ k, (f k).podName = k.podName) :
    ∀ l : List KapiData,
      List.find? (fun x => x.podName = podName) (updateFirst f podName l) =
        (List.find? (fun x => x.podName = podName) l).map f
  | [] => rfl
  | k :: rest => by
    by_cases h : k.podName = podName
    · simp [updateFirst, h, List.find?_cons, hf k]
    · simp [updateFirst, h, List.find?_cons, find_updateFirst f podName hf rest]

lemma getKapiDataInternal_update (reg : Registry) (ns pod : String) (f : KapiData → KapiData)
    (hf : ∀ k, (f k).podName = k.podName) :
    getKapiDataInternal (updateKapiOfShoot reg ns pod f) ns pod =
      (getKapiDataInternal reg ns pod).map f := by
  unfold getKapiDataInternal updateKapiOfShoot
  cases h : reg.shoots ns with
  | none => simp [h]
  | some shoot => simp [h, find_updateFirst f pod hf shoot.kapiData]

lemma applySample_podName (g c n : ℤ) (k : KapiData) :
    (applySample g c n k).podName = k.podName := by
  unfold applySample
  dsimp only
  split <;> rfl

lemma applySample_faultCount (g c n : ℤ) (k : KapiData) :
    (applySample g c n k).faultCount = 0 := by
  unfold applySample
  dsimp only
  split <;> rfl

lemma ite_gt_min (L x : ℚ) : (if x > L then L else x) = min L x := by
  rcases le_or_lt x L with h | h
  · rw [if_neg (not_lt.mpr h), min_eq_right h]
  · rw [if_pos h, min_eq_left h.le]

lemma ite_lt_max (x : ℚ) : (if x < 0 then 0 else x) = max 0 x := by
  rcases le_or_lt 0 x with h | h
  · rw [if_neg (not_lt.mpr h), max_eq_right h]
  · rw [if_pos h, max_eq_left h.le]

lemma getNextCandidate_eq (reg : Registry) :
    ∀ targets : List ScrapeTarget,
      getNextCandidate reg targets =
        (targets.dropWhile (fun t => (GetKapiData reg t.Namespace t.PodName).isNone),
         (targets.dropWhile (fun t => (GetKapiData reg t.Namespace t.PodName).isNone)).head?.bind
           fun t => (GetKapiData reg t.Namespace t.PodName).map fun kapi => (t, kapi))
  | [] => rfl
  | t :: rest => by
    cases h : GetKapiData reg t.Namespace t.PodName with
    | some kapi => simp [getNextCandidate, h, List.dropWhile_cons]
    | none => simp [getNextCandidate, h, List.dropWhile_cons, getNextCandidate_eq reg rest]

lemma truncQ_intCast (n : ℤ) : truncQ ((n : ℤ) : ℚ) = n := by
  unfold truncQ
  split <;> simp

lemma getTotalRequestCountLoop_spec :
    ∀ (chunks : List Chunk) (total : ℤ) (found : Bool),
      (∀ c ∈ chunks, c.isFragmentFlag = false) →
      getTotalRequestCountLoop chunks total found false =
        match lineValues (((chunks.map Chunk.line).map stripLeadingSpace).filter
            (fun l => metricNameChars.isPrefixOf l)) with
        | .error e => .error e
        | .ok vs =>
          if found = false ∧ vs = [] then .error .noCountersFound
          else .ok (vs.foldl (fun acc v => i64wrap (acc + v)) total)
  | [], total, found, _ => by
    cases found <;> simp [getTotalRequestCountLoop, lineValues]
  | c :: rest, total, found, hflags => by
    have hc : c.isFragmentFlag = false := hflags c (by simp)
    have hrest : ∀ x ∈ rest, x.isFragmentFlag = false := fun x hx => hflags x (by simp [hx])
    by_cases hpre : metricNameChars.isPrefixOf (stripLeadingSpace c.line) = true
    · cases hp : parseLine (stripLeadingSpace c.line) with
      | ok sid v =>
        have ih := getTotalRequestCountLoop_spec rest (i64wrap (total + v)) true hrest
        simp only [getTotalRequestCountLoop, hc, Bool.false_eq_true, if_false, hpre, if_true,
          hp, ih, List.map_cons, List.filter_cons, lineValues]
        cases hlv : lineValues (((rest.map Chunk.line).map stripLeadingSpace).filter
            (fun l => metricNameChars.isPrefixOf l)) with
        | error e => rfl
        | ok vs =>
          have hl : (true = false ∧ vs = []) = False := by simp
          have hr : (found = false ∧ v :: vs = []) = False := by simp
          simp only [Except.map, hl, hr, if_false, List.foldl_cons]
      | malformed =>
        simp only [getTotalRequestCountLoop, hc, Bool.false_eq_true, if_false, hpre, if_true,
          hp, List.map_cons, List.filter_cons, lineValues]
      | panicked =>
        simp only [getTotalRequestCountLoop, hc, Bool.false_eq_true, if_false, hpre, if_true,
          hp, List.map_cons, List.filter_cons, lineValues]
    · have ih := getTotalRequestCountLoop_spec rest total found hrest
      simp only [getTotalRequestCountLoop, hc, Bool.false_eq_true, if_false, hpre,
        List.map_cons, List.filter_cons, ih]

lemma getNextCandidate_head_found (reg : Registry) :
    ∀ (targets : List ScrapeTarget) (t : ScrapeTarget),
      (getNextCandidate reg targets).1.head? = some t →
      ∃ kapi, GetKapiData reg t.Namespace t.PodName = some kapi
  | [], t, h => by simp [getNextCandidate] at h
  | t0 :: rest, t, h => by
    cases h0 : GetKapiData reg t0.Namespace t0.PodName with
    | some kapi =>
      simp only [getNextCandidate, h0, List.head?_cons, Option.some.injEq] at h
      exact ⟨kapi, h ▸ h0⟩
    | none =>
      simp only [getNextCandidate, h0] at h
      exact getNextCandidate_head_found reg rest t h

lemma cleanupGo_deletes_preconditioned (env : CleanupEnv) (ip : String) (port : ℤ) :
    ∀ (fuel attempt : ℕ), ∀ call ∈ (cleanupGo env ip port fuel attempt).2,
      ∃ e, env.get call.attempt = .found e
        ∧ isEndpointStillPointingToOurReplica ip port e = true
        ∧ call.uid = e.uid ∧ call.resourceVersion = e.resourceVersion
  | 0, attempt => by simp [cleanupGo]
  | fuel + 1, attempt => by
    intro call hcall
    cases henv : env.get attempt with
    | notFound => simp [cleanupGo, henv] at hcall
    | errOther =>
      simp only [cleanupGo, henv] at hcall
      exact cleanupGo_deletes_preconditioned env ip port fuel (attempt + 1) call hcall
    | found e =>
      by_cases hp : isEndpointStillPointingToOurReplica ip port e = true
      · cases hdel : env.del attempt with
        | deleted =>
          simp only [cleanupGo, henv, hp, if_true, hdel, List.mem_singleton] at hcall
          subst hcall
          exact ⟨e, henv, hp, rfl, rfl⟩
        | notFound =>
          simp only [cleanupGo, henv, hp, if_true, hdel, List.mem_singleton] at hcall
          subst hcall
          exact ⟨e, henv, hp, rfl, rfl⟩
        | errOther =>
          simp only [cleanupGo, henv, hp, if_true, hdel, List.mem_cons] at hcall
          rcases hcall with hcall | hcall
          · subst hcall
            exact ⟨e, henv, hp, rfl, rfl⟩
          · exact cleanupGo_deletes_preconditioned env ip port fuel (attempt + 1) call hcall
      · simp [cleanupGo, henv, hp] at hcall

lemma cleanupGo_exhausts (env : CleanupEnv) (ip : String) (port : ℤ) :
    ∀ (fuel attempt : ℕ),
      (∀ i, attempt ≤ i → i < attempt + fuel → cleanupIterFails env ip port i) →
      (cleanupGo env ip port fuel attempt).1 = .exhausted
  | 0, attempt, _ => rfl
  | fuel + 1, attempt, hfails => by
    have hthis := hfails attempt le_rfl (by omega)
    cases henv : env.get attempt with
    | notFound =>
      rcases hthis with h | ⟨e, he, _, _⟩
      · rw [henv] at h; cases h
      · rw [henv] at he; cases he
    | errOther =>
      simp only [cleanupGo, henv]
      exact cleanupGo_exhausts env ip port fuel (attempt + 1)
        fun i h1 h2 => hfails i (by omega) (by omega)
    | found e =>
      rcases hthis with h | ⟨e2, he2, hp2, hdel2⟩
      · rw [henv] at h; cases h
      · rw [henv] at he2
        injection he2 with he2e
        subst he2e
        simp only [cleanupGo, henv, hp2, if_true, hdel2]
        exact cleanupGo_exhausts env ip port fuel (attempt + 1)
          fun i h1 h2 => hfails i (by omega) (by omega)

lemma cleanupGo_abandons (env : CleanupEnv) (ip : String) (port : ℤ) :
    ∀ (fuel attempt j : ℕ) (e : Endpoints),
      attempt ≤ j → j < attempt + fuel →
      (∀ i, attempt ≤ i → i < j → cleanupIterFails env ip port i) →
      env.get j = .found e →
      isEndpointStillPointingToOurReplica ip port e = false →
      (cleanupGo env ip port fuel attempt).1 = .abandonedForeign
      ∧ ∀ call ∈ (cleanupGo env ip port fuel attempt).2, call.attempt < j
  | 0, attempt, j, e, hle, hlt, _, _, _ => by omega
  | fuel + 1, attempt, j, e, hle, hlt, hfails, hget, hpoint => by
    rcases eq_or_lt_of_le hle with heq | hlt2
    · subst heq
      constructor
      · simp only [cleanupGo, hget, hpoint, Bool.false_eq_true, if_false]
      · intro call hcall
        simp only [cleanupGo, hget, hpoint, Bool.false_eq_true, if_false,
          List.not_mem_nil] at hcall
    · have hthis := hfails attempt le_rfl hlt2
      cases henv : env.get attempt with
      | notFound =>
        rcases hthis with h | ⟨e2, he2, _, _⟩
        · rw [henv] at h; cases h
        · rw [henv] at he2; cases he2
      | errOther =>
        have ih := cleanupGo_abandons env ip port fuel (attempt + 1) j e (by omega) (by omega)
          (fun i h1 h2 => hfails i (by omega) h2) hget hpoint
        constructor
        · simp only [cleanupGo, henv]
          exact ih.1
        · intro call hcall
          simp only [cleanupGo, henv] at hcall
          exact ih.2 call hcall
      | found e0 =>
        rcases hthis with h | ⟨e2, he2, hp2, hdel2⟩
        · rw [henv] at h; cases h
        · rw [henv] at he2
          injection he2 with he2e
          subst he2e
          have ih := cleanupGo_abandons env ip port fuel (attempt + 1) j e (by omega) (by omega)
            (fun i h1 h2 => hfails i (by omega) h2) hget hpoint
          constructor
          · simp only [cleanupGo, henv, hp2, if_true, hdel2]
            exact ih.1
          · intro call hcall
            simp only [cleanupGo, henv, hp2, if_true, hdel2, List.mem_cons] at hcall
            rcases hcall with hcall | hcall
            · subst hcall
              exact hlt2
            · exact ih.2 call hcall

/-! ## Claims -/

/-- C1: a sample offered through `SetKapiMetrics` for a pod present in the
registry is accepted (previous `new` shifts into `old`, `new` becomes the
offered counter and the call instant) exactly when the counter is at least
the stored `new` counter and at least `MinSampleGap` elapsed since the stored
`new` timestamp; an ignored sample leaves the stored sample pair unchanged;
for an absent pod the registry is unchanged. -/
theorem setKapiMetrics_accept_iff (reg : Registry) (ns pod : String) (count now : ℤ) :
    (∀ k, getKapiDataInternal reg ns pod = some k →
       getKapiDataInternal (SetKapiMetrics reg ns pod count now) ns pod =
         some (if k.totalRequestCountNew ≤ count ∧ reg.minSampleGap ≤ now - k.metricsTimeNew
               then { k with
                        metricsTimeOld := k.metricsTimeNew
                        totalRequestCountOld := k.totalRequestCountNew
                        metricsTimeNew := now
                        totalRequestCountNew := count
                        faultCount := 0 }
               else { k with faultCount := 0 }))
    ∧ (getKapiDataInternal reg ns pod = none → SetKapiMetrics reg ns pod count now = reg) := by
  constructor
  · intro k hk
    unfold SetKapiMetrics
    rw [hk]
    rw [getKapiDataInternal_update reg ns pod _ (applySample_podName reg.minSampleGap count now), hk]
    unfold applySample
    dsimp only [Option.map]
    by_cases hrej : count < k.totalRequestCountNew ∨ now - k.metricsTimeNew < reg.minSampleGap
    · rw [if_pos hrej, if_neg (by omega)]
    · rw [if_neg hrej, if_pos (by omega)]
  · intro hk
    unfold SetKapiMetrics
    rw [hk]

/-- Witness for C1: the accepted case on a concrete registry. -/
theorem setKapiMetrics_accept_iff_witness :
    getKapiDataInternal (SetKapiMetrics exampleRegistry "shoot--a" "kapi-0" 5 20000000000)
        "shoot--a" "kapi-0" =
      some { exampleKapi with
               metricsTimeOld := exampleKapi.metricsTimeNew
               totalRequestCountOld := exampleKapi.totalRequestCountNew
               metricsTimeNew := 20000000000
               totalRequestCountNew := 5
               faultCount := 0 } := by
  have h :=
    (setKapiMetrics_accept_iff exampleRegistry "shoot--a" "kapi-0" 5 20000000000).1
      exampleKapi rfl
  rw [h, if_pos (by decide)]

/-- C10: `SetKapiMetrics` on a pod present in the registry resets the pod's
consecutive-fault counter to zero whether or not the offered sample is
accepted. -/
theorem setKapiMetrics_resets_faults (reg : Registry) (ns pod : String) (count now : ℤ) :
    ∀ k, getKapiDataInternal reg ns pod = some k →
      ∃ k2, getKapiDataInternal (SetKapiMetrics reg ns pod count now) ns pod = some k2 ∧
        k2.faultCount = 0 := by
  intro k hk
  refine ⟨applySample reg.minSampleGap count now k, ?_, applySample_faultCount _ _ _ _⟩
  unfold SetKapiMetrics
  rw [hk]
  rw [getKapiDataInternal_update reg ns pod _ (applySample_podName reg.minSampleGap count now), hk]
  rfl

/-- Witness for C10: an ignored sample (counter went backwards) still resets
the fault counter. -/
theorem setKapiMetrics_resets_faults_witness :
    ∃ k2, getKapiDataInternal (SetKapiMetrics exampleRegistry "shoot--a" "kapi-0" (-1) 20000000000)
        "shoot--a" "kapi-0" = some k2 ∧ k2.faultCount = 0 :=
  setKapiMetrics_resets_faults exampleRegistry "shoot--a" "kapi-0" (-1) 20000000000
    exampleKapi rfl

/-- C2: between calls the pacemaker evolves debt to
`min(DebtLimit, debt + Δ·MinRate)` and surplus to
`max(0, surplus − Δ·MaxRate)`; it grants exactly when the evolved surplus is
at most `SurplusLimit − 1` and (the evolved debt is at least 1 or the caller
is eager); a grant decrements debt (clamped below at 0) and increments
surplus (clamped above at `SurplusLimit`); a denial leaves both at their
evolved values. Stated under the pacemaker's state and configuration
invariants and for a non-decreasing clock. -/
theorem getScrapePermission_spec (p : PacemakerState) (now : ℤ) (eager : Bool)
    (hlast : p.lastUpdateTime ≠ 0)
    (hmono : p.lastUpdateTime ≤ now)
    (hminRate : 0 ≤ p.config.minRate)
    (hmaxRate : 0 ≤ p.config.maxRate)
    (hdl : 0 ≤ p.config.rateDebtLimit)
    (hsl : 0 ≤ p.config.rateSurplusLimit)
    (hdebt : 0 ≤ p.currentDebt)
    (hsurplus : p.currentSurplus ≤ (p.config.rateSurplusLimit : ℚ)) :
    ((getScrapePermission p now eager).1 = true ↔
       evolvedSurplus p (((now - p.lastUpdateTime : ℤ) : ℚ) / 1000000000) ≤
           (p.config.rateSurplusLimit : ℚ) - 1 ∧
         (1 ≤ evolvedDebt p (((now - p.lastUpdateTime : ℤ) : ℚ) / 1000000000) ∨ eager = true))
    ∧ ((getScrapePermission p now eager).1 = true →
        (getScrapePermission p now eager).2 =
          { p with
              lastUpdateTime := now
              currentDebt :=
                max 0 (evolvedDebt p (((now - p.lastUpdateTime : ℤ) : ℚ) / 1000000000) - 1)
              currentSurplus :=
                min (p.config.rateSurplusLimit : ℚ)
                  (evolvedSurplus p (((now - p.lastUpdateTime : ℤ) : ℚ) / 1000000000) + 1) })
    ∧ ((getScrapePermission p now eager).1 = false →
        (getScrapePermission p now eager).2 =
          { p with
              lastUpdateTime := now
              currentDebt := evolvedDebt p (((now - p.lastUpdateTime : ℤ) : ℚ) / 1000000000)
              currentSurplus :=
                evolvedSurplus p (((now - p.lastUpdateTime : ℤ) : ℚ) / 1000000000) }) := by
  have hΔ : (0 : ℚ) ≤ ((now - p.lastUpdateTime : ℤ) : ℚ) / 1000000000 := by
    apply div_nonneg _ (by norm_num)
    exact_mod_cast sub_nonneg.mpr hmono
  set Δ : ℚ := ((now - p.lastUpdateTime : ℤ) : ℚ) / 1000000000 with hΔdef
  have hcast : ((p.config.rateSurplusLimit - 1 : ℤ) : ℚ) = (p.config.rateSurplusLimit : ℚ) - 1 := by
    push_cast
    ring
  have hd2 : (0 : ℚ) ≤ min (p.config.rateDebtLimit : ℚ) (p.currentDebt + Δ * p.config.minRate) :=
    le_min (by exact_mod_cast hdl) (add_nonneg hdebt (mul_nonneg hΔ hminRate))
  have hs2 : max 0 (p.currentSurplus - Δ * p.config.maxRate) ≤ (p.config.rateSurplusLimit : ℚ) :=
    max_le (by exact_mod_cast hsl)
      (le_trans (by linarith [mul_nonneg hΔ hmaxRate]) hsurplus)
  simp only [getScrapePermission, if_neg hlast, ite_gt_min, ite_lt_max, ge_iff_le, hcast,
    evolvedDebt, evolvedSurplus, ← hΔdef]
  by_cases hC :
      max 0 (p.currentSurplus - Δ * p.config.maxRate) ≤ (p.config.rateSurplusLimit : ℚ) - 1 ∧
        (1 ≤ min (p.config.rateDebtLimit : ℚ) (p.currentDebt + Δ * p.config.minRate) ∨ eager = true)
  · rw [if_pos hC]
    refine ⟨iff_of_true rfl hC, fun _ => ?_, fun h => absurd h (by simp)⟩
    simp only [ite_lt_max, ite_gt_min]
  · rw [if_neg hC]
    refine ⟨iff_of_false (by simp) hC, fun h => absurd h (by simp), fun _ => ?_⟩
    simp only [ite_lt_max, ite_gt_min]
    rw [max_eq_right hd2, min_eq_right hs2]

/-- Witness for C2: a concrete mid-flight state, one second after its last
update, queried lazily. -/
theorem getScrapePermission_spec_witness :
    pmMidState.lastUpdateTime ≠ 0 ∧ pmMidState.lastUpdateTime ≤ 2000000000 ∧
    (((getScrapePermission pmMidState 2000000000 false).1 = true ↔
       evolvedSurplus pmMidState (((2000000000 - pmMidState.lastUpdateTime : ℤ) : ℚ) / 1000000000) ≤
           (pmMidState.config.rateSurplusLimit : ℚ) - 1 ∧
         (1 ≤ evolvedDebt pmMidState
             (((2000000000 - pmMidState.lastUpdateTime : ℤ) : ℚ) / 1000000000) ∨ false = true))
    ∧ (((getScrapePermission pmMidState 2000000000 false).1 = true →
        (getScrapePermission pmMidState 2000000000 false).2 =
          { pmMidState with
              lastUpdateTime := 2000000000
              currentDebt :=
                max 0 (evolvedDebt pmMidState
                  (((2000000000 - pmMidState.lastUpdateTime : ℤ) : ℚ) / 1000000000) - 1)
              currentSurplus :=
                min (pmMidState.config.rateSurplusLimit : ℚ)
                  (evolvedSurplus pmMidState
                    (((2000000000 - pmMidState.lastUpdateTime : ℤ) : ℚ) / 1000000000) + 1) })
    ∧ ((getScrapePermission pmMidState 2000000000 false).1 = false →
        (getScrapePermission pmMidState 2000000000 false).2 =
          { pmMidState with
              lastUpdateTime := 2000000000
              currentDebt :=
                evolvedDebt pmMidState
                  (((2000000000 - pmMidState.lastUpdateTime : ℤ) : ℚ) / 1000000000)
              currentSurplus :=
                evolvedSurplus pmMidState
                  (((2000000000 - pmMidState.lastUpdateTime : ℤ) : ℚ) / 1000000000) }))) :=
  ⟨by decide, by decide,
   getScrapePermission_spec pmMidState 2000000000 false (by decide) (by decide)
     (by norm_num [pmMidState]) (by norm_num [pmMidState]) (by decide) (by decide)
     (by norm_num [pmMidState]) (by norm_num [pmMidState])⟩

/-- C3 (counterexample): with `MinRate=2, MaxRate=4, DebtLimit=20,
SurplusLimit=10`, after ten granted burst calls, a denial, and five seconds
of idleness, the claim expects the eleventh further eager call (overall call
index 21, 0-based) to be granted as one of twenty; the code denies it — the
surplus ceiling of 10 caps the burst regardless of the accumulated debt. -/
theorem pacemakerScenario_counterexample :
    (pacemakerRun pmScenario scenarioCalls).1.get? 21 = some false := by
  norm_num [pacemakerRun, getScrapePermission, scenarioCalls, pmScenario, newPacemaker,
    List.replicate]

/-- C3 (amended): starting empty, ten eager calls in the same instant are
granted and the eleventh is denied; after five seconds of idleness, ten
further eager calls are granted and the eleventh is denied. -/
theorem pacemakerScenario_amended :
    (pacemakerRun pmScenario scenarioCalls).1 =
      List.replicate 10 true ++ [false] ++ (List.replicate 10 true ++ [false]) := by
  norm_num [pacemakerRun, getScrapePermission, scenarioCalls, pmScenario, newPacemaker,
    List.replicate]

/-- C4 (code-bug demonstration): `GetKapiData` (and likewise a
`GetShootKapis` listing) returns the record copied with `result := *pkapi`,
so the snapshot's `PodLabels` map header — here `podLabelsAddr` — is the
registry's own. The snapshot equals the stored record, including the shared
address; after the caller assigns through the snapshot's map
(`exampleRegistryAfterCallerWrite` differs from `exampleRegistry` only by
that one heap write), the registry's stored record — unchanged, still
reading its labels through the same address — observes the caller's value.
This contradicts the documented "deep copy, fully detached" contract. -/
theorem registrySnapshot_labels_alias :
    GetKapiData exampleRegistry "shoot--a" "kapi-0" = some exampleKapi
    ∧ GetShootKapis exampleRegistry "shoot--a" = [exampleKapi]
    ∧ heapLabels exampleRegistry.labelHeap exampleKapi.podLabelsAddr = [("k1", "v1")]
    ∧ getKapiDataInternal exampleRegistryAfterCallerWrite "shoot--a" "kapi-0" = some exampleKapi
    ∧ heapLabels exampleRegistryAfterCallerWrite.labelHeap exampleKapi.podLabelsAddr =
        [("k1", "hijacked")] := by
  refine ⟨rfl, rfl, rfl, rfl, rfl⟩

/-- C5: `GetNext` removes the maximal prefix of queue targets missing from
the registry; the candidate is the first remaining target with its registry
record, and there is none exactly when nothing remains, in which case the
call returns none without touching the pacemaker; otherwise the pacemaker is
consulted with `eager = (now ≥ lastScrapeTime + scrapePeriod)`; on denial the
call returns none and leaves the queue order unchanged (head not rotated); on
a grant the head's last-scrape time is set to `now` in the registry, the head
rotates to the tail, and the target is returned. -/
theorem getNext_spec (targets : List ScrapeTarget) (scrapePeriod : ℤ) (reg : Registry)
    (pm : PacemakerState) (now : ℤ) :
    ((getNextCandidate reg targets).1 =
        targets.dropWhile (fun t => (GetKapiData reg t.Namespace t.PodName).isNone))
    ∧ ((getNextCandidate reg targets).2 = none ↔ (getNextCandidate reg targets).1 = [])
    ∧ ((getNextCandidate reg targets).2 = none →
        GetNext targets scrapePeriod reg pm now =
          (none, (getNextCandidate reg targets).1, reg, pm))
    ∧ (∀ t kapi, (getNextCandidate reg targets).2 = some (t, kapi) →
        ((getNextCandidate reg targets).1.head? = some t
          ∧ GetKapiData reg t.Namespace t.PodName = some kapi)
        ∧ ((getScrapePermission pm now
              (decide (kapi.lastMetricsScrapeTime + scrapePeriod ≤ now))).1 = false →
            GetNext targets scrapePeriod reg pm now =
              (none, (getNextCandidate reg targets).1, reg,
               (getScrapePermission pm now
                 (decide (kapi.lastMetricsScrapeTime + scrapePeriod ≤ now))).2))
        ∧ ((getScrapePermission pm now
              (decide (kapi.lastMetricsScrapeTime + scrapePeriod ≤ now))).1 = true →
            GetNext targets scrapePeriod reg pm now =
              (some t, (getNextCandidate reg targets).1.tail ++ [t],
               SetKapiLastScrapeTime reg t.Namespace t.PodName now,
               (getScrapePermission pm now
                 (decide (kapi.lastMetricsScrapeTime + scrapePeriod ≤ now))).2))) := by
  have h1 : (getNextCandidate reg targets).1 =
      targets.dropWhile (fun t => (GetKapiData reg t.Namespace t.PodName).isNone) := by
    rw [getNextCandidate_eq]
  have h2 : (getNextCandidate reg targets).2 =
      (targets.dropWhile (fun t => (GetKapiData reg t.Namespace t.PodName).isNone)).head?.bind
        (fun t => (GetKapiData reg t.Namespace t.PodName).map fun kapi => (t, kapi)) := by
    rw [getNextCandidate_eq]
  refine ⟨h1, ?_, ?_, ?_⟩
  · constructor
    · intro h
      cases hd : (getNextCandidate reg targets).1 with
      | nil => rfl
      | cons t rest =>
        obtain ⟨kapi, hk⟩ := getNextCandidate_head_found reg targets t (by rw [hd]; rfl)
        rw [h2] at h
        rw [h1] at hd
        rw [hd] at h
        simp [hk] at h
    · intro h
      rw [h1] at h
      rw [h2, h]
      rfl
  · intro h
    simp only [GetNext]
    rw [h]
  · intro t kapi h
    have hfound : (getNextCandidate reg targets).1.head? = some t
        ∧ GetKapiData reg t.Namespace t.PodName = some kapi := by
      rw [h2] at h
      rw [h1]
      cases hd : (targets.dropWhile
          (fun t => (GetKapiData reg t.Namespace t.PodName).isNone)).head? with
      | none => rw [hd] at h; simp at h
      | some t0 =>
        rw [hd] at h
        cases hk : GetKapiData reg t0.Namespace t0.PodName with
        | none => simp [hk] at h
        | some k0 =>
          have heq : (t0, k0) = (t, kapi) := by
            simpa [hk] using h
          have ht : t0 = t := congrArg Prod.fst heq
          have hkk : k0 = kapi := congrArg Prod.snd heq
          subst ht
          subst hkk
          exact ⟨rfl, hk⟩
    refine ⟨hfound, fun hperm => ?_, fun hperm => ?_⟩
    · simp only [GetNext]
      rw [h]
      simp only [hperm, Bool.false_eq_true, if_false]
    · simp only [GetNext]
      rw [h]
      simp only [hperm, if_true]

/-- Witness for C5: a one-target queue whose target is due; the fresh
pacemaker grants, so the target is dispatched and rotated back. -/
theorem getNext_spec_witness :
    (getNextCandidate exampleRegistry [exampleTarget]).2 = some (exampleTarget, exampleKapi)
    ∧ (getScrapePermission pmScenario 70000000000
        (decide (exampleKapi.lastMetricsScrapeTime + 60000000000 ≤ 70000000000))).1 = true
    ∧ GetNext [exampleTarget] 60000000000 exampleRegistry pmScenario 70000000000 =
        (some exampleTarget,
         (getNextCandidate exampleRegistry [exampleTarget]).1.tail ++ [exampleTarget],
         SetKapiLastScrapeTime exampleRegistry exampleTarget.Namespace exampleTarget.PodName
           70000000000,
         (getScrapePermission pmScenario 70000000000
           (decide (exampleKapi.lastMetricsScrapeTime + 60000000000 ≤ 70000000000))).2) := by
  have hcand : (getNextCandidate exampleRegistry [exampleTarget]).2 =
      some (exampleTarget, exampleKapi) := rfl
  have hgrant : (getScrapePermission pmScenario 70000000000
      (decide (exampleKapi.lastMetricsScrapeTime + 60000000000 ≤ 70000000000))).1 = true := by
    norm_num [getScrapePermission, pmScenario, newPacemaker, exampleKapi]
  exact ⟨hcand, hgrant,
    ((getNext_spec [exampleTarget] 60000000000 exampleRegistry pmScenario 70000000000).2.2.2
      exampleTarget exampleKapi hcand).2.2 hgrant⟩

/-- C6 (counterexample): the code selects lines by `strings.HasPrefix`, not
by series-name equality. On the single-line body
`"apiserver_request_total2 5"` — whose only series name is
`apiserver_request_total2`, so per the claim no counter series is present and
the call must fail with the no-counters-found error — the code instead
parses the character `2` as the value and returns the sum 2. -/
theorem parser_seriesName_counterexample :
    getTotalRequestCount [{ line := rogueLine, isFragmentFlag := false }] = .ok 2
    ∧ seriesName rogueLine ≠ metricNameChars
    ∧ specSeriesSum [rogueLine] = .error .noCountersFound :=
  ⟨rfl, by decide, rfl⟩

/-- C6 (amended): for every input whose lines fit the reader buffer, the
parser returns the (`int64` wrap-around) sum of the parsed values of all
lines beginning with the configured counter name after optional leading
blanks — failing with a malformed-line error if such a line does not parse —
and fails with the no-counters-found error when no line begins with the
counter name; on the scenario body it returns 15 + 20 + 10056 = 10091. -/
theorem parser_prefix_sum_amended :
    (∀ chunks : List Chunk, (∀ c ∈ chunks, c.isFragmentFlag = false) →
       getTotalRequestCount chunks = prefixMatchSum (chunks.map Chunk.line))
    ∧ getTotalRequestCount exampleBodyChunks = .ok 10091 := by
  constructor
  · intro chunks h
    rw [getTotalRequestCount, getTotalRequestCountLoop_spec chunks 0 false h]
    cases hlv : lineValues (((chunks.map Chunk.line).map stripLeadingSpace).filter
        (fun l => metricNameChars.isPrefixOf l)) with
    | error e => simp only [prefixMatchSum, hlv]
    | ok vs =>
      cases vs with
      | nil => simp only [prefixMatchSum, hlv]; rfl
      | cons v rest => simp only [prefixMatchSum, hlv]; rfl
  · have h : getTotalRequestCount exampleBodyChunks =
        .ok (i64wrap (35 +
          truncQ (((10056 : ℕ) : ℚ) / (10 : ℚ) ^ (4 : ℕ) * (10 : ℚ) ^ (4 : ℕ)))) := rfl
    rw [h, show (((10056 : ℕ) : ℚ) / (10 : ℚ) ^ (4 : ℕ) * (10 : ℚ) ^ (4 : ℕ)) = ((10056 : ℤ) : ℚ)
      by push_cast; ring, truncQ_intCast]
    rfl

/-- Witness for C6 (amended): the scenario body has no over-long lines, and
the loop agrees with the declarative prefix-selection sum on it. -/
theorem parser_prefix_sum_amended_witness :
    (∀ c ∈ exampleBodyChunks, c.isFragmentFlag = false)
    ∧ getTotalRequestCount exampleBodyChunks = prefixMatchSum (exampleBodyChunks.map Chunk.line) :=
  ⟨by decide, parser_prefix_sum_amended.1 exampleBodyChunks (by decide)⟩

/-- C7 (counterexample): two requests over a three-second gap give the exact
milli-rate 2000/3 ≈ 666.67. The code emits `int64(rate*1000) = 666`
(truncation toward zero), while the claim's "rounded to int64" value is 667. -/
theorem provider_value_truncates_counterexample :
    (getMetricForKapi 90000000000 600000000000 3000000000 exampleRateKapi).map
        MetricValue.value = some 666
    ∧ roundHalfAway ((((2 : ℤ) : ℚ) / (((3000000000 : ℤ) : ℚ) / 1000000000)) * 1000) = 667 := by
  constructor
  · have h : (getMetricForKapi 90000000000 600000000000 3000000000 exampleRateKapi).map
        MetricValue.value =
        some (truncQ ((((2 : ℤ) : ℚ) / (((3000000000 : ℤ) : ℚ) / 1000000000)) * 1000)) := rfl
    rw [h, show ((((2 : ℤ) : ℚ) / (((3000000000 : ℤ) : ℚ) / 1000000000)) * 1000)
      = (2000 : ℚ) / 3 by norm_num]
    have hv : truncQ ((2000 : ℚ) / 3) = 666 := by
      unfold truncQ
      rw [if_pos (by norm_num), Int.floor_eq_iff]
      norm_num
    rw [hv]
  · rw [show ((((2 : ℤ) : ℚ) / (((3000000000 : ℤ) : ℚ) / 1000000000)) * 1000)
      = (2000 : ℚ) / 3 by norm_num]
    unfold roundHalfAway
    rw [if_pos (by norm_num), Int.floor_eq_iff]
    norm_num

/-- C7 (amended): the provider skips exactly the snapshots with sample-time
gap 0, gap above `MaxSampleGap`, or new-sample time older than
`now − MaxSampleAge`; every emitted metric carries the rate
`(counterNew − counterOld)/gapSeconds` multiplied by 1000 and truncated
toward zero to int64 (not rounded), the new-sample timestamp, and the gap
rounded to whole seconds as its window. -/
theorem getMetricForKapi_spec (maxSampleAge maxSampleGap now : ℤ) (kapi : KapiData) :
    (getMetricForKapi maxSampleAge maxSampleGap now kapi = none ↔
      (kapi.metricsTimeNew - kapi.metricsTimeOld = 0
        ∨ kapi.metricsTimeNew - kapi.metricsTimeOld > maxSampleGap
        ∨ kapi.metricsTimeNew < now - maxSampleAge))
    ∧ (∀ mv, getMetricForKapi maxSampleAge maxSampleGap now kapi = some mv →
        mv.value = truncQ ((((kapi.totalRequestCountNew - kapi.totalRequestCountOld : ℤ) : ℚ) /
            (((kapi.metricsTimeNew - kapi.metricsTimeOld : ℤ) : ℚ) / 1000000000)) * 1000)
        ∧ mv.timestamp = kapi.metricsTimeNew
        ∧ mv.windowSeconds =
            roundHalfAway (((kapi.metricsTimeNew - kapi.metricsTimeOld : ℤ) : ℚ) /
              1000000000)) := by
  simp only [getMetricForKapi]
  by_cases h1 : kapi.metricsTimeNew - kapi.metricsTimeOld = 0
  · rw [if_pos h1]
    exact ⟨iff_of_true rfl (Or.inl h1), fun mv h => by cases h⟩
  · rw [if_neg h1]
    by_cases h2 : kapi.metricsTimeNew - kapi.metricsTimeOld > maxSampleGap
    · rw [if_pos h2]
      exact ⟨iff_of_true rfl (Or.inr (Or.inl h2)), fun mv h => by cases h⟩
    · rw [if_neg h2]
      by_cases h3 : kapi.metricsTimeNew < now - maxSampleAge
      · rw [if_pos h3]
        exact ⟨iff_of_true rfl (Or.inr (Or.inr h3)), fun mv h => by cases h⟩
      · rw [if_neg h3]
        refine ⟨iff_of_false (by simp) (fun hd => hd.elim h1 fun hd2 => hd2.elim h2 h3),
          fun mv h => ?_⟩
        injection h with h'
        subst h'
        exact ⟨rfl, rfl, rfl⟩

/-- Witness for C7 (amended): the emission case on `exampleRateKapi`. -/
theorem getMetricForKapi_spec_witness :
    getMetricForKapi 90000000000 600000000000 3000000000 exampleRateKapi =
      some metricWitnessValue
    ∧ (metricWitnessValue.value =
        truncQ ((((exampleRateKapi.totalRequestCountNew -
            exampleRateKapi.totalRequestCountOld : ℤ) : ℚ) /
          (((exampleRateKapi.metricsTimeNew - exampleRateKapi.metricsTimeOld : ℤ) : ℚ) /
            1000000000)) * 1000)
      ∧ metricWitnessValue.timestamp = exampleRateKapi.metricsTimeNew
      ∧ metricWitnessValue.windowSeconds =
          roundHalfAway (((exampleRateKapi.metricsTimeNew -
            exampleRateKapi.metricsTimeOld : ℤ) : ℚ) / 1000000000)) :=
  ⟨rfl, (getMetricForKapi_spec 90000000000 600000000000 3000000000 exampleRateKapi).2
    metricWitnessValue rfl⟩

/-- C8 (counterexample): with `MinShiftWorkers=1, MaxShiftWorkers=10,
MaxActiveWorkers=50`, fifty active workers, one worker and no leftover last
shift, the decay estimate is 0; the claim's clamp order yields
`min(max(0,1), 50−50) = 0` workers, but the code raises to
`MinShiftWorkers = 1` and skips the headroom clamp, spawning a worker beyond
`MaxActiveWorkers`. -/
theorem startShiftWorkerCount_counterexample :
    startShiftWorkerCount 1 10 50 50 0 1 0 0 = 1
    ∧ claimShiftWorkerCount 1 10 50 50 0 1 0 0 = 0 := by decide

/-- C8 (amended): the spec's formula — `want` from the throughput estimate
(capped at doubling) or the decay rule, clamped to
`[MinShiftWorkers, MaxShiftWorkers]` and then to
`MaxActiveWorkers − activeWorkerCount` — matches the code whenever the
remaining headroom is at least `MinShiftWorkers`; when `want` falls below
`MinShiftWorkers` the code returns `MinShiftWorkers` without the headroom
clamp. (`1 ≤ lastShiftWorkerCount` marks the domain on which the exact `ℚ`
division models the Go `float64` division.) -/
theorem startShiftWorkerCount_amended (mns mxs mxa act ltc lwc lo due : ℤ)
    (hlwc : 1 ≤ lwc) (hmm : mns ≤ mxs) (hhead : mns ≤ mxa - act) :
    startShiftWorkerCount mns mxs mxa act ltc lwc lo due =
      claimShiftWorkerCount mns mxs mxa act ltc lwc lo due := by
  simp only [startShiftWorkerCount, claimShiftWorkerCount]
  have hthr : (if ((ltc - lo : ℤ) : ℚ) / (lwc : ℚ) < 1 then (1 : ℚ)
        else ((ltc - lo : ℤ) : ℚ) / (lwc : ℚ))
      = max 1 (((ltc - lo : ℤ) : ℚ) / (lwc : ℚ)) := by
    rcases le_or_lt 1 (((ltc - lo : ℤ) : ℚ) / (lwc : ℚ)) with h | h
    · rw [if_neg (not_lt.mpr h), max_eq_right h]
    · rw [if_pos h, max_eq_left h.le]
  rw [hthr]
  by_cases hlo : lo > 0
  · rw [if_pos hlo, if_pos hlo]
    have hmin : (if ⌈(due : ℚ) / max 1 (((ltc - lo : ℤ) : ℚ) / (lwc : ℚ))⌉ > 2 * lwc then 2 * lwc
          else ⌈(due : ℚ) / max 1 (((ltc - lo : ℤ) : ℚ) / (lwc : ℚ))⌉)
        = min (⌈(due : ℚ) / max 1 (((ltc - lo : ℤ) : ℚ) / (lwc : ℚ))⌉) (2 * lwc) := by
      rcases le_or_lt (⌈(due : ℚ) / max 1 (((ltc - lo : ℤ) : ℚ) / (lwc : ℚ))⌉) (2 * lwc) with h | h
      · rw [if_neg (not_lt.mpr h), min_eq_left h]
      · rw [if_pos h, min_eq_right h.le]
    rw [hmin]
    generalize (min (⌈(due : ℚ) / max 1 (((ltc - lo : ℤ) : ℚ) / (lwc : ℚ))⌉) (2 * lwc)) = want
    simp only [min_def, max_def]
    split_ifs <;> omega
  · rw [if_neg hlo, if_neg hlo]
    simp only [min_def, max_def]
    split_ifs <;> omega

/-- Witness for C8 (amended): a growth shift with enough headroom. -/
theorem startShiftWorkerCount_amended_witness :
    (1 : ℤ) ≤ 4 ∧ (1 : ℤ) ≤ 10 ∧ (1 : ℤ) ≤ 50 - 5 ∧
    startShiftWorkerCount 1 10 50 5 100 4 3 80 = claimShiftWorkerCount 1 10 50 5 100 4 3 80 :=
  ⟨by decide, by decide, by decide,
   startShiftWorkerCount_amended 1 10 50 5 100 4 3 80 (by decide) (by decide) (by decide)⟩

/-- C9: every delete the cleanup issues carries the UID / resource-version
precondition of a just-fetched record that still points at this replica
(exactly one subset, one address equal to the serving IP, one TCP port equal
to the serving port); when a fetch shows the record pointing elsewhere, the
cleanup abandons it — result `abandonedForeign`, and no delete was issued at
or after that iteration; when all ten iterations fail, the cleanup gives up
with an error. -/
theorem cleanup_safety (env : CleanupEnv) (ip : String) (port : ℤ) :
    (∀ call ∈ (cleanUpServiceEndpoints env ip port).2,
       ∃ e, env.get call.attempt = .found e
         ∧ isEndpointStillPointingToOurReplica ip port e = true
         ∧ call.uid = e.uid ∧ call.resourceVersion = e.resourceVersion)
    ∧ (∀ j e, j < 10 → (∀ i, i < j → cleanupIterFails env ip port i) →
        env.get j = .found e →
        isEndpointStillPointingToOurReplica ip port e = false →
        (cleanUpServiceEndpoints env ip port).1 = .abandonedForeign
        ∧ ∀ call ∈ (cleanUpServiceEndpoints env ip port).2, call.attempt < j)
    ∧ ((∀ i, i < 10 → cleanupIterFails env ip port i) →
        (cleanUpServiceEndpoints env ip port).1 = .exhausted) :=
  ⟨fun call h => cleanupGo_deletes_preconditioned env ip port 10 0 call h,
   fun j e hj hfails hget hpoint =>
     cleanupGo_abandons env ip port 10 0 j e (by omega) (by omega)
       (fun i _ h2 => hfails i h2) hget hpoint,
   fun hfails => cleanupGo_exhausts env ip port 10 0 (fun i _ h2 => hfails i (by omega))⟩

/-- Witness for C9: an environment in which every fetch fails exhausts the
ten attempts and returns the error outcome. -/
theorem cleanup_safety_witness :
    (∀ i, i < 10 → cleanupIterFails envAllFail "10.0.0.1" 443 i)
    ∧ (cleanUpServiceEndpoints envAllFail "10.0.0.1" 443).1 = .exhausted :=
  ⟨fun i _ => Or.inl rfl,
   (cleanup_safety envAllFail "10.0.0.1" 443).2.2 fun i _ => Or.inl rfl⟩

end GCM
